import Mathlib

/-!
# Verification of the ETF PCF dashboard ingestion/derivation core

Shallow embedding of the Python modules `src/data/aggregator.py`,
`src/data/parser_futures.py`, `src/data/parser_pcf.py`,
`src/data/parser_holdings.py`, `src/data/storage.py` and the notional
helper `_calc_notional` of `src/ui/etf_timeseries_view.py`.

Conventions of the embedding:
* pandas float columns are modelled by `Option ℚ`; both `None` and `NaN`
  are modelled by `none` (pandas treats both as "na" everywhere the
  embedded code inspects them), and arithmetic propagates `none` the way
  float arithmetic propagates `NaN`.
* Python regular expressions are hand-compiled into a small executable
  matcher (`RE`) or into bespoke scanners that follow the pattern text
  of the source character by character.
* impure reads of the ambient clock (`date.today()`) become an explicit
  `today` parameter.
-/

/-- Whitespace characters recognised by Python `str.strip` / `\s`
(ASCII whitespace plus NBSP and the ideographic space, the only
non-ASCII blanks that occur in this data). -/
def wsChars : List Char := " \t\n\r\x0b\x0c 　".toList

def isWs (c : Char) : Bool := wsChars.contains c

/-- Python `str.strip()` on a list of characters. -/
def pyStripL (l : List Char) : List Char :=
  ((l.dropWhile isWs).reverse.dropWhile isWs).reverse

/-- Python `str.strip()` on a `String`. -/
def pyStrip (s : String) : String := ⟨pyStripL s.toList⟩

/-- Python `str.strip('"')`: remove all leading and trailing `"` characters. -/
def stripQuotesL (l : List Char) : List Char :=
  ((l.dropWhile (Char.ofNat 34 = ·)).reverse.dropWhile (Char.ofNat 34 = ·)).reverse

/-- Python `s.split("\n")`. -/
def splitOnNl : List Char → List (List Char)
  | [] => [[]]
  | c :: rest =>
    let r := splitOnNl rest
    if c = '\n' then [] :: r else (c :: r.headD []) :: r.tail

/-- Python `s.split(sep)` for a one-character separator. -/
def splitOnChar (sep : Char) : List Char → List (List Char)
  | [] => [[]]
  | c :: rest =>
    let r := splitOnChar sep rest
    if c = sep then [] :: r else (c :: r.headD []) :: r.tail

/-- Python `"\n".join(ls)` (over character lists). -/
def joinNl : List (List Char) → List Char
  | [] => []
  | [l] => l
  | l :: ls => l ++ '\n' :: joinNl ls

def lowerL (l : List Char) : List Char := l.map Char.toLower

def upperL (l : List Char) : List Char := l.map Char.toUpper

/-- Substring containment, Python `a in b` for strings. -/
def containsSub (needle : List Char) : List Char → Bool
  | [] => needle.isEmpty
  | c :: rest => needle.isPrefixOf (c :: rest) || containsSub needle rest

/-! ## Numeric field parsing (`_parse_number` / `_parse_int`)

`src/data/parser_pcf.py` lines 411-429 (the same helpers are duplicated in
`src/data/parser_holdings.py`).  Python `float(...)` literals are modelled
for decimal/scientific notation; the exotic `float` spellings
(`inf`, `nan`, underscore separators) are treated as unparseable. -/

def digitVal (c : Char) : Nat := c.toNat - '0'.toNat

def digitsToNat (l : List Char) : Nat := l.foldl (fun a c => a * 10 + digitVal c) 0

/-- Parse `[eE][+-]?digits` (the whole remaining input). -/
def parseExpPart : List Char → Option Int
  | e :: rest =>
    if e = 'e' ∨ e = 'E' then
      match rest with
      | '+' :: ds => if ds ≠ [] ∧ ds.all Char.isDigit then some (digitsToNat ds : Int) else none
      | '-' :: ds => if ds ≠ [] ∧ ds.all Char.isDigit then some (-(digitsToNat ds : Int)) else none
      | ds => if ds ≠ [] ∧ ds.all Char.isDigit then some (digitsToNat ds : Int) else none
    else none
  | [] => some 0

/-- Mantissa `digits[.digits]` with at least one digit somewhere, returning
(numerator, number of fractional digits, rest). -/
def parseMantissa (l : List Char) : Option (Nat × Nat × List Char) :=
  let ip := l.takeWhile Char.isDigit
  let rest := l.dropWhile Char.isDigit
  match rest with
  | '.' :: rest2 =>
    let fp := rest2.takeWhile Char.isDigit
    let rest3 := rest2.dropWhile Char.isDigit
    if ip = [] ∧ fp = [] then none
    else some (digitsToNat (ip ++ fp), fp.length, rest3)
  | _ => if ip = [] then none else some (digitsToNat ip, 0, rest)

/-- Python `float(s)` on an already-stripped string, restricted to
decimal/scientific literals. -/
def pyFloat (l : List Char) : Option ℚ :=
  let (sign, body) : ℚ × List Char :=
    match l with
    | '+' :: r => (1, r)
    | '-' :: r => (-1, r)
    | r => (1, r)
  match parseMantissa body with
  | none => none
  | some (m, fracLen, rest) =>
    match parseExpPart rest with
    | none => none
    | some e => some (sign * (m : ℚ) * (10 : ℚ) ^ (e - (fracLen : Int)))

/-- `_parse_number`: strip whitespace and quotes, delete commas, reject
empty and `"-"`, then `float`. -/
def parse_number (s : String) : Option ℚ :=
  let l := (stripQuotesL (pyStripL s.toList)).filter (· ≠ ',')
  if l = [] ∨ l = ['-'] then none else pyFloat l

def parse_number_opt (s : Option String) : Option ℚ :=
  match s with
  | none => none
  | some s => parse_number s

/-- Python `int(f)` for a float value: truncation toward zero. -/
def truncRat (q : ℚ) : Int := Int.tdiv q.num (q.den : Int)

/-- `_parse_int`: `int(_parse_number(s))` when the number parses. -/
def parse_int (s : String) : Option Int := (parse_number s).map truncRat

def parse_int_opt (s : Option String) : Option Int :=
  match s with
  | none => none
  | some s => parse_int s

/-! ## Option-valued float arithmetic (NaN-propagating pandas columns) -/

def osub : Option ℚ → Option ℚ → Option ℚ
  | some a, some b => some (a - b)
  | _, _ => none

def omul : Option ℚ → Option ℚ → Option ℚ
  | some a, some b => some (a * b)
  | _, _ => none

/-! ## `compute_creation_redemption` (src/data/aggregator.py lines 21-76)

The input `etf_timeseries` DataFrame is modelled by `TSFrame`: the list of
column labels (for the required-column validation) plus the typed rows. -/

structure TSRow where
  etf_code : String
  date : Int
  nav : Option ℚ
  shares_outstanding : Option ℚ
deriving DecidableEq

structure TSFrame where
  cols : List String
  rows : List TSRow
deriving DecidableEq

structure CRRow where
  etf_code : String
  date : Int
  shares_outstanding : Option ℚ
  shares_change : Option ℚ
  nav_per_unit : Option ℚ
  flow_amount : Option ℚ
  flow_type : Option String
deriving DecidableEq

/-- `df["nav"] / df["shares_outstanding"]` followed by
`.replace([inf, -inf], None)`: division by zero produces `±inf` (or `NaN`
for `0/0`), all of which end up na. -/
def nav_per_unit_of (r : TSRow) : Option ℚ :=
  match r.nav, r.shares_outstanding with
  | some n, some s => if s = 0 then none else some (n / s)
  | _, _ => none

/-- Lexicographic order on character lists by code point (both Python and
pandas compare strings this way). -/
def strLtL : List Char → List Char → Bool
  | [], [] => false
  | [], _ :: _ => true
  | _ :: _, [] => false
  | a :: as, b :: bs => a.toNat < b.toNat || (a.toNat = b.toNat && strLtL as bs)

def strLt (a b : String) : Bool := strLtL a.toList b.toList

/-- `sort_values(["etf_code", "date"])` comparison. -/
def tsRowLe (a b : TSRow) : Bool :=
  strLt a.etf_code b.etf_code || (a.etf_code = b.etf_code && a.date ≤ b.date)

/-- The last row of `seen` (a prefix of the frame in sorted order) carrying
the given `etf_code`: the row `groupby("etf_code").diff()/shift(1)` reads. -/
def lastWithCode (code : String) : List TSRow → Option TSRow
  | [] => none
  | r :: rest =>
    match lastWithCode code rest with
    | some p => some p
    | none => if r.etf_code = code then some r else none

/-- One output row of the creation/redemption pipeline: the day's
`shares_change` (groupby diff), `nav_per_unit`, the flow amount priced at
the previous row's per-unit NAV (`shift(1)`), and the flow type. -/
def crRow (cur : TSRow) (prev : Option TSRow) : CRRow :=
  let shares_change := osub cur.shares_outstanding (prev.bind (·.shares_outstanding))
  let npu := nav_per_unit_of cur
  let npuPrev := prev.bind nav_per_unit_of
  let flow := omul shares_change npuPrev
  let ftype : Option String :=
    match shares_change with
    | some x => if 0 < x then some "creation" else if x < 0 then some "redemption" else none
    | none => none
  ⟨cur.etf_code, cur.date, cur.shares_outstanding, shares_change, npu, flow, ftype⟩

/-- Walk the sorted frame accumulating the rows already seen, so that each
row is differenced against the previous row of its own ETF. -/
def crRowsAux : List TSRow → List TSRow → List CRRow
  | _, [] => []
  | seen, r :: rest => crRow r (lastWithCode r.etf_code seen) :: crRowsAux (seen ++ [r]) rest

def REQUIRED_COLS : List String := ["etf_code", "date", "nav", "shares_outstanding"]

/-- `compute_creation_redemption`.  `df.empty` (either axis of length 0)
short-circuits to an empty frame; otherwise missing required columns raise
`ValueError` (modelled by `Except.error` carrying the message); otherwise
rows are sorted by (etf_code, date), differenced per ETF and the first row
of each ETF (na `shares_change`) is dropped. -/
def compute_creation_redemption (df : TSFrame) : Except String (List CRRow) :=
  if df.rows.isEmpty || df.cols.isEmpty then .ok []
  else
    match REQUIRED_COLS.find? (fun c => !(df.cols.contains c)) with
    | some c => .error ("必須列がありません: " ++ c)
    | none =>
      let sorted := df.rows.insertionSort (fun a b => tsRowLe a b = true)
      .ok ((crRowsAux [] sorted).filter (fun r => r.shares_change.isSome))

/-! ## Time-series store merge (`append_daily`, src/data/storage.py lines 104-137)

A stored row is keyed by `(etf_code, date)`; `nav` stands for the row's
value payload (the real frame carries more value columns, all treated
alike by the merge). -/

structure SRow where
  etf_code : String
  date : Int
  nav : ℚ
deriving DecidableEq

def skey (r : SRow) : String × Int := (r.etf_code, r.date)

/-- pandas `drop_duplicates(subset=["etf_code", "date"], keep="last")`:
keep a row iff no later row has the same key, preserving order. -/
def dropDupKeepLast : List SRow → List SRow
  | [] => []
  | r :: rest =>
    if rest.any (fun s => skey s = skey r) then dropDupKeepLast rest
    else r :: dropDupKeepLast rest

/-- `sort_values(["etf_code", "date"])` order on stored rows. -/
def sRowLe (a b : SRow) : Prop :=
  strLt a.etf_code b.etf_code = true ∨ (a.etf_code = b.etf_code ∧ a.date ≤ b.date)

instance : DecidableRel sRowLe := fun a b => by
  unfold sRowLe; infer_instance

/-- `append_daily` as a pure merge: given the currently stored rows and the
freshly parsed batch, produce the newly stored rows.  An empty batch
returns without writing; a batch merged into an empty store is saved
verbatim; otherwise the concatenation is deduplicated by key (new data
winning) and sorted by key. -/
def append_daily (existing new_df : List SRow) : List SRow :=
  if new_df.isEmpty then existing
  else if existing.isEmpty then new_df
  else (dropDupKeepLast (existing ++ new_df)).insertionSort sRowLe

/-! ## Futures name normalisation (src/data/parser_futures.py)

Hand-compiled executable regular expressions.  `RE.matchFrom re l k`
asks whether `re` can match a prefix of `l` such that the continuation
`k` accepts the remainder; `reSearch` is Python's `pattern.search`. -/

inductive RE where
  | str : List Char → RE
  | anyOf : List Char → RE
  | manyOf : List Char → RE
  | seq : RE → RE → RE
  | alt : RE → RE → RE
  | opt : RE → RE
deriving Repr

/-- Greedy-with-backtracking repetition of a character class (`\s*` and
friends): accept when the continuation accepts after consuming any run of
class characters. -/
def manyOfAux (cs : List Char) : List Char → (List Char → Bool) → Bool
  | input, k =>
    k input ||
      match input with
      | [] => false
      | c :: rest => cs.contains c && manyOfAux cs rest k

def RE.matchFrom : RE → List Char → (List Char → Bool) → Bool
  | .str s, input, k => s.isPrefixOf input && k (input.drop s.length)
  | .anyOf cs, input, k =>
    match input with
    | [] => false
    | c :: rest => cs.contains c && k rest
  | .manyOf cs, input, k => manyOfAux cs input k
  | .seq a b, input, k => RE.matchFrom a input (fun rest => RE.matchFrom b rest k)
  | .alt a b, input, k => RE.matchFrom a input k || RE.matchFrom b input k
  | .opt a, input, k => RE.matchFrom a input k || k input

/-- `pattern.search(s)`: the pattern matches starting at some position. -/
def reSearch (re : RE) (l : List Char) : Bool :=
  re.matchFrom l (fun _ => true) ||
    match l with
    | [] => false
    | _ :: rest => reSearch re rest

/-! ### The ordered classification pattern list (`FUTURES_PATTERNS`)

`re.IGNORECASE` is realised by matching the uppercased subject against
uppercase literals. -/

def reLit (s : String) : RE := .str s.toList

/-- `\s*` -/
def wsStar : RE := .manyOf wsChars

def reSeqs : List RE → RE
  | [] => .str []
  | [r] => r
  | r :: rs => .seq r (reSeqs rs)

def FUTURES_PATTERNS : List (RE × String) := [
  (reSeqs [reLit "NK225", wsStar, reLit ".OP.CALL"], "NK225_OPTION_CALL"),
  (reSeqs [reLit "NK225", wsStar, reLit ".OP.PUT"], "NK225_OPTION_PUT"),
  (.seq (.alt (reLit "NK225") (reSeqs [reLit "NIKKEI", wsStar, reLit "22", .opt (reLit "5")]))
        (.seq wsStar (reLit "MICRO")), "NK225_MICRO"),
  (reSeqs [reLit "225", wsStar, .opt (reLit "-"), wsStar, reLit "MINI"], "NK225_MINI"),
  (reSeqs [reLit "NIKKEI", wsStar, reLit "22", .opt (reLit "5"), wsStar, reLit "MINI"],
    "NK225_MINI"),
  (reSeqs [reLit "NK225", wsStar, reLit "MINI"], "NK225_MINI"),
  (reSeqs [reLit "MINI", wsStar, .opt (reLit "-"), wsStar,
    .alt (reLit "NK") (reLit "NIKKEI"), wsStar, reLit "225"], "NK225_MINI"),
  (reLit "NK225", "NK225"),
  (reSeqs [reLit "NIKKEI", wsStar, reLit "225"], "NK225"),
  (reSeqs [reLit "MINI", wsStar, .opt (reLit "-"), wsStar,
    .alt (reLit "TOPIX") (reLit "TPX")], "MINI_TOPIX"),
  (reSeqs [reLit "TOPIX", wsStar, .opt (reSeqs [reLit "INDX", wsStar]), reLit "MINI"],
    "MINI_TOPIX"),
  (reSeqs [reLit "TOPIX", wsStar, reLit "BANK", .opt (reLit "S"), wsStar,
    .opt (reLit "INDEX")], "TOPIX_BANKS"),
  (reSeqs [reLit "TOPIX", wsStar, reLit "CORE", wsStar, reLit "30"], "TOPIX_CORE30"),
  (reLit "TOPIX", "TOPIX"),
  (.alt (reSeqs [reLit "JPX", wsStar, .opt (reLit "-"), wsStar, reLit "NIKKEI", wsStar,
      .opt (reSeqs [reLit "INDEX", wsStar]), reLit "400"])
    (.alt (reLit "NK400") (reSeqs [reLit "JPXNIKKEI", wsStar, reLit "400"])), "JPX400"),
  (reSeqs [reLit "JPX", wsStar, reLit "PRIME", wsStar, reLit "150"], "JPX_PRIME150"),
  (.alt (reSeqs [reLit "TSE", wsStar, .opt (reLit "-"), wsStar, reLit "REIT"])
    (.alt (reLit "TSEREIT") (reSeqs [reLit "TOPIX", wsStar, reLit "REIT"])), "TSEREIT"),
  (reSeqs [reLit "TSE", wsStar, reLit "GROWTH"], "TSE_GROWTH"),
  (reSeqs [reLit "10", wsStar, reLit "YEAR", wsStar, reLit "JGB"], "JGB10Y")]

/-! ### Contract month extraction (`_extract_contract_month`) -/

def MONTH_ABBR_TO_NUM : List (String × String) :=
  [("JAN", "01"), ("FEB", "02"), ("MAR", "03"), ("APR", "04"),
   ("MAY", "05"), ("JUN", "06"), ("JUL", "07"), ("AUG", "08"),
   ("SEP", "09"), ("OCT", "10"), ("NOV", "11"), ("DEC", "12")]

/-- Case-insensitive three-letter month abbreviation at the head of `l`,
returning the month number and the rest. -/
def monthAt (l : List Char) : Option (String × List Char) :=
  MONTH_ABBR_TO_NUM.findSome? fun p =>
    if upperL (l.take 3) = p.1.toList ∧ 3 ≤ l.length then some (p.2, l.drop 3) else none

/-- Python `\w` (restricted to ASCII; the inputs at issue are ASCII). -/
def wordChar (c : Char) : Bool := c.isAlphanum || c = '_'

/-- `\b` before a word character: start of string or a non-word predecessor. -/
def bdry (prev : Option Char) : Bool :=
  match prev with
  | none => true
  | some c => !wordChar c

/-- `\b` after a word character: end of string or a non-word successor. -/
def bdryAfter (l : List Char) : Bool :=
  match l with
  | [] => true
  | c :: _ => !wordChar c

/-- `RE_OPTION_MONTH = \.(MMM)\.(\d{4})\.` anchored at the current position. -/
def optionMonthAt (l : List Char) : Option String :=
  match l with
  | '.' :: rest =>
    match monthAt rest with
    | some (mm, rest2) =>
      match rest2 with
      | '.' :: d1 :: d2 :: d3 :: d4 :: '.' :: _ =>
        if [d1, d2, d3, d4].all Char.isDigit then some (⟨[d3, d4]⟩ ++ mm) else none
      | _ => none
    | none => none
  | _ => none

def searchOptionMonth : List Char → Option String
  | [] => none
  | c :: rest =>
    match optionMonthAt (c :: rest) with
    | some r => some r
    | none => searchOptionMonth rest

/-- `RE_CONTRACT_MMM_YYYY = \b(MMM)[.\s](\d{4})\b` at the current position
(`prev` is the character before it). -/
def mmmYyyyAt (prev : Option Char) (l : List Char) : Option String :=
  if bdry prev then
    match monthAt l with
    | some (mm, rest) =>
      match rest with
      | sep :: d1 :: d2 :: d3 :: d4 :: rest2 =>
        if (sep = '.' ∨ isWs sep) ∧ [d1, d2, d3, d4].all Char.isDigit ∧ bdryAfter rest2 then
          some (⟨[d3, d4]⟩ ++ mm)
        else none
      | _ => none
    | none => none
  else none

def searchMmmYyyy : Option Char → List Char → Option String
  | _, [] => none
  | prev, c :: rest =>
    match mmmYyyyAt prev (c :: rest) with
    | some r => some r
    | none => searchMmmYyyy (some c) rest

/-- `RE_CONTRACT_MMM_YY = \b(MMM)\s+(\d{2})\b` at the current position. -/
def mmmYyAt (prev : Option Char) (l : List Char) : Option String :=
  if bdry prev then
    match monthAt l with
    | some (mm, rest) =>
      let ws := rest.takeWhile isWs
      match rest.dropWhile isWs with
      | d1 :: d2 :: rest2 =>
        if ws ≠ [] ∧ d1.isDigit ∧ d2.isDigit ∧ bdryAfter rest2 then
          some (⟨[d1, d2]⟩ ++ mm)
        else none
      | _ => none
    | none => none
  else none

def searchMmmYy : Option Char → List Char → Option String
  | _, [] => none
  | prev, c :: rest =>
    match mmmYyAt prev (c :: rest) with
    | some r => some r
    | none => searchMmmYy (some c) rest

/-- `RE_CONTRACT_YYYYMM = (?<!\d)(20\d{4})(?!\d)` at the current position;
the returned month code is `yyyymm[2:]`. -/
def yyyymmAt (prev : Option Char) (l : List Char) : Option String :=
  if (prev.map Char.isDigit).getD false then none
  else
    match l with
    | '2' :: '0' :: d1 :: d2 :: d3 :: d4 :: rest =>
      if [d1, d2, d3, d4].all Char.isDigit ∧ !(rest.headD ' ').isDigit then
        some ⟨[d1, d2, d3, d4]⟩
      else none
    | _ => none

def searchYyyymm : Option Char → List Char → Option String
  | _, [] => none
  | prev, c :: rest =>
    match yyyymmAt prev (c :: rest) with
    | some r => some r
    | none => searchYyyymm (some c) rest

/-- `RE_CONTRACT_YYMM.findall`: every position where `\b(\d{4})\b` matches,
left to right. -/
def yymmCandidates : Option Char → List Char → List (List Char)
  | _, [] => []
  | prev, c :: rest =>
    let here : List (List Char) :=
      match c :: rest with
      | d1 :: d2 :: d3 :: d4 :: rest2 =>
        if bdry prev ∧ [d1, d2, d3, d4].all Char.isDigit ∧ bdryAfter rest2 then
          [[d1, d2, d3, d4]]
        else []
      | _ => []
    here ++ yymmCandidates (some c) rest

/-- The final `YYMM` fallback: first four-digit candidate with
`20 ≤ yy ≤ 35` and `1 ≤ mm ≤ 12`. -/
def searchYymm (l : List Char) : Option String :=
  (yymmCandidates none l).findSome? fun c4 =>
    let yy := digitsToNat (c4.take 2)
    let mm := digitsToNat (c4.drop 2)
    if 20 ≤ yy ∧ yy ≤ 35 ∧ 1 ≤ mm ∧ mm ≤ 12 then some ⟨c4⟩ else none

/-- `_extract_contract_month`: the five patterns in fixed priority order. -/
def extract_contract_month (raw_name : List Char) : Option String :=
  match searchOptionMonth raw_name with
  | some r => some r
  | none =>
    match searchMmmYyyy none raw_name with
    | some r => some r
    | none =>
      match searchMmmYy none raw_name with
      | some r => some r
      | none =>
        match searchYyyymm none raw_name with
        | some r => some r
        | none => searchYymm raw_name

/-! ### Classification and `normalize_futures` -/

/-- The garbled-prefix characters removed by `re.sub(r"[・ｽ]+", "", ...)`. -/
def gMarks : List Char := "・ｽ".toList

/-- `re.sub(r"[・ｽ]+", "", raw_name).strip()`, uppercased so the
`re.IGNORECASE` patterns can use uppercase literals. -/
def cleanedName (raw_name : List Char) : List Char :=
  upperL (pyStripL (raw_name.filter (fun c => !gMarks.contains c)))

/-- `_classify_futures_type`: clean, then first matching pattern wins,
falling back to `"UNKNOWN"` (the unmatched name is logged, never raised). -/
def classify_futures_type (raw_name : List Char) : String :=
  match FUTURES_PATTERNS.findSome?
      (fun p => if reSearch p.1 (cleanedName raw_name) then some p.2 else none) with
  | some t => t
  | none => "UNKNOWN"

/-- `config.FUTURES_MULTIPLIERS` (src/config.py lines 175-191). -/
def FUTURES_MULTIPLIERS : List (String × Int) :=
  [("TOPIX", 10000), ("MINI_TOPIX", 1000), ("NK225", 1000), ("NK225_MINI", 100),
   ("NK225_MICRO", 10), ("JPX400", 100), ("TSEREIT", 1000), ("JGB10Y", 10000),
   ("TOPIX_BANKS", 1000), ("TOPIX_CORE30", 10000), ("TSE_GROWTH", 1000),
   ("JPX_PRIME150", 1000), ("NK225_OPTION_CALL", 1000), ("NK225_OPTION_PUT", 1000),
   ("UNKNOWN", 1)]

/-- `FUTURES_MULTIPLIERS.get(futures_type, 1)`. -/
def multGet (t : String) : Int :=
  ((FUTURES_MULTIPLIERS.find? (fun p => p.1 = t)).map (·.2)).getD 1

structure FuturesPosition where
  raw_name : String
  futures_type : String
  contract_month : Option String
  quantity : Int
  market_value : ℚ
  multiplier : Int
deriving DecidableEq

/-- `normalize_futures` (src/data/parser_futures.py lines 179-217): a total
function — classification failure degrades to `"UNKNOWN"`, never an
exception. -/
def normalize_futures (raw_name : String) (quantity : Int) (market_value : ℚ) :
    FuturesPosition :=
  if raw_name = "" then
    { raw_name := "", futures_type := "UNKNOWN", contract_month := none,
      quantity := quantity, market_value := market_value, multiplier := 1 }
  else
    let rn := pyStripL raw_name.toList
    let ft := classify_futures_type rn
    { raw_name := ⟨rn⟩, futures_type := ft, contract_month := extract_contract_month rn,
      quantity := quantity, market_value := market_value, multiplier := multGet ft }

/-! ## Row classifier `_is_futures_row`
(src/data/parser_pcf.py lines 432-485; the identical logic is duplicated
in src/data/parser_holdings.py lines 249-284). -/

def reDigit : RE := .anyOf "0123456789".toList

/-- `\s+` -/
def wsPlus : RE := .seq (.anyOf wsChars) (.manyOf wsChars)

def reDigit4 : RE := reSeqs [reDigit, reDigit, reDigit, reDigit]

def EXCHANGE_TOKENS : List String :=
  ["OSE", "XOSE", "TSE", "XTKS", "SAP", "OTC", "HKF", "TOCOM", "XNYS", "XNAS"]

/-- One step of the exchange-cell scan: cell `idx` must exist and be truthy;
its stripped uppercase value is accepted only if it is a known token. -/
def exchangeAt (row : List String) (idx : Nat) : Option String :=
  if idx < row.length ∧ row.getD idx "" ≠ "" then
    let val : String := ⟨upperL (pyStripL (row.getD idx "").toList)⟩
    if EXCHANGE_TOKENS.contains val then some val else none
  else none

/-- The `for idx in [3, 4]` scan with `break` on the first recognised token. -/
def scanExchange (row : List String) : String :=
  match exchangeAt row 3 with
  | some v => v
  | none => (exchangeAt row 4).getD ""

def upperAZ (c : Char) : Bool := 'A' ≤ c && c ≤ 'Z'

/-- `re.match(r"^[A-Z]{2,4}[A-Z0-9]\d$", code)`: 2-4 capital letters, one
capital alphanumeric, one digit, consuming the whole string. -/
def codeFuturesPattern (code : List Char) : Bool :=
  [2, 3, 4].any fun k =>
    code.length = k + 2 && (code.take k).all upperAZ &&
      (upperAZ (code.getD k ' ') || (code.getD k ' ').isDigit) &&
      (code.getD (k + 1) ' ').isDigit

/-- `futures_name_patterns`, searched in the uppercased name cell. -/
def FUT_NAME_PATTERNS : List RE := [
  reLit "FUTURES",
  reLit "FUTR",
  reSeqs [reLit "TOPIX", wsPlus, reDigit4],
  reSeqs [reLit "NK225", wsPlus, reDigit4],
  reSeqs [reLit "NIKKEI", wsStar, reLit "22", .opt (reLit "5"), wsPlus, reDigit],
  reSeqs [reLit "TOPIX", wsPlus, reLit "INDX"],
  reSeqs [reLit "NIKKEI", wsPlus, reLit "225", wsPlus, reLit "MINI"],
  reLit "JGB",
  reLit "先物"]

/-- `_is_futures_row`. -/
def is_futures_row (row : List String) : Bool :=
  if row.length < 3 then false
  else
    let code : String := pyStrip (row.headD "")
    let name : List Char := upperL (pyStripL (row.getD 1 "").toList)
    let exchange := scanExchange row
    let nameBlock : Bool :=
      if code = "" ∧ name ≠ [] then FUT_NAME_PATTERNS.any (fun p => reSearch p name)
      else false
    if exchange = "OSE" ∨ exchange = "XOSE" then
      if code = "" then true
      else if codeFuturesPattern code.toList then true
      else nameBlock
    else nameBlock

/-! ## CSV reading (Python `csv.reader`, default dialect)

Fields are comma-separated; a field opening with `"` is quoted (doubled
quotes denote a literal quote, newlines and commas inside quotes are
literal); text following a closing quote is appended verbatim. -/

def quoteChar : Char := Char.ofNat 34

inductive CsvMode where
  | fieldStart | unquoted | quoted | afterQuote
deriving DecidableEq

def csvParseAux : List Char → CsvMode → List Char → List String → List (List String)
  | [], mode, field, rowAcc =>
    match mode with
    | .fieldStart => if rowAcc = [] then [] else [rowAcc ++ [⟨field⟩]]
    | _ => [rowAcc ++ [⟨field⟩]]
  | c :: rest, mode, field, rowAcc =>
    match mode with
    | .fieldStart =>
      if c = ',' then csvParseAux rest .fieldStart [] (rowAcc ++ [""])
      else if c = '\n' then
        (if rowAcc = [] then [] else rowAcc ++ [""]) :: csvParseAux rest .fieldStart [] []
      else if c = quoteChar then csvParseAux rest .quoted [] rowAcc
      else csvParseAux rest .unquoted [c] rowAcc
    | .unquoted =>
      if c = ',' then csvParseAux rest .fieldStart [] (rowAcc ++ [⟨field⟩])
      else if c = '\n' then (rowAcc ++ [⟨field⟩]) :: csvParseAux rest .fieldStart [] []
      else csvParseAux rest .unquoted (field ++ [c]) rowAcc
    | .quoted =>
      if c = quoteChar then csvParseAux rest .afterQuote field rowAcc
      else csvParseAux rest .quoted (field ++ [c]) rowAcc
    | .afterQuote =>
      if c = quoteChar then csvParseAux rest .quoted (field ++ [c]) rowAcc
      else if c = ',' then csvParseAux rest .fieldStart [] (rowAcc ++ [⟨field⟩])
      else if c = '\n' then (rowAcc ++ [⟨field⟩]) :: csvParseAux rest .fieldStart [] []
      else csvParseAux rest .unquoted (field ++ [c]) rowAcc

def csvParse (l : List Char) : List (List String) := csvParseAux l .fieldStart [] []

/-- `next(csv.reader(io.StringIO(line)), [])`. -/
def csvReadLine (l : List Char) : List String := (csvParse l).headD []

/-! ## `_parse_date` (src/data/parser_pcf.py lines 388-408)

`datetime.strptime` is modelled token by token following CPython's
`_strptime` regular expressions (`%Y` = four digits; `%m` =
`1[0-2]|0[1-9]|[1-9]`; `%d` = `3[01]|[12]\d|0[1-9]|[1-9]`; `%b` = a month
abbreviation, case-insensitive), including its backtracking order, the
whole-string requirement and `date(...)` validation. -/

structure PDate where
  year : Nat
  month : Nat
  day : Nat
deriving DecidableEq

def isLeap (y : Nat) : Bool := (y % 4 = 0 && y % 100 ≠ 0) || y % 400 = 0

def daysInMonth (y m : Nat) : Nat :=
  if m = 2 then (if isLeap y then 29 else 28)
  else if m = 4 ∨ m = 6 ∨ m = 9 ∨ m = 11 then 30
  else 31

/-- `datetime.date(y, m, d)`: `none` models `ValueError`. -/
def mkDate (y m d : Nat) : Option PDate :=
  if 1 ≤ y ∧ y ≤ 9999 ∧ 1 ≤ m ∧ m ≤ 12 ∧ 1 ≤ d ∧ d ≤ daysInMonth y m then
    some ⟨y, m, d⟩
  else none

/-- `%Y`: exactly four digits. -/
def candsY : List Char → List (Nat × List Char)
  | d1 :: d2 :: d3 :: d4 :: rest =>
    if [d1, d2, d3, d4].all Char.isDigit then [(digitsToNat [d1, d2, d3, d4], rest)] else []
  | _ => []

/-- `%m` alternatives in regex order: `1[0-2]`, `0[1-9]`, `[1-9]`. -/
def candsM (l : List Char) : List (Nat × List Char) :=
  (match l with
   | '1' :: c :: rest => if '0' ≤ c ∧ c ≤ '2' then [(10 + digitVal c, rest)] else []
   | _ => []) ++
  (match l with
   | '0' :: c :: rest => if '1' ≤ c ∧ c ≤ '9' then [(digitVal c, rest)] else []
   | _ => []) ++
  (match l with
   | c :: rest => if '1' ≤ c ∧ c ≤ '9' then [(digitVal c, rest)] else []
   | _ => [])

/-- `%d` alternatives in regex order: `3[01]`, `[12]\d`, `0[1-9]`, `[1-9]`. -/
def candsD (l : List Char) : List (Nat × List Char) :=
  (match l with
   | '3' :: c :: rest => if c = '0' ∨ c = '1' then [(30 + digitVal c, rest)] else []
   | _ => []) ++
  (match l with
   | c1 :: c2 :: rest =>
     if (c1 = '1' ∨ c1 = '2') ∧ c2.isDigit then [(10 * digitVal c1 + digitVal c2, rest)] else []
   | _ => []) ++
  (match l with
   | '0' :: c :: rest => if '1' ≤ c ∧ c ≤ '9' then [(digitVal c, rest)] else []
   | _ => []) ++
  (match l with
   | c :: rest => if '1' ≤ c ∧ c ≤ '9' then [(digitVal c, rest)] else []
   | _ => [])

/-- `%b`: case-insensitive month abbreviation. -/
def candsB (l : List Char) : List (Nat × List Char) :=
  match monthAt l with
  | some (mm, rest) => [(digitsToNat mm.toList, rest)]
  | none => []

def candsLit (ch : Char) : List Char → List (Unit × List Char)
  | c :: rest => if c = ch then [((), rest)] else []
  | [] => []

def firstSomeList : List (α × List Char) → (α → List Char → Option β) → Option β
  | [], _ => none
  | (a, rest) :: more, k =>
    match k a rest with
    | some b => some b
    | none => firstSomeList more k

/-- `%Y<sep>%m<sep>%d` (sep `-` or `/`). -/
def fmtYmdSep (sep : Char) (l : List Char) : Option (Nat × Nat × Nat) :=
  firstSomeList (candsY l) fun y r1 =>
  firstSomeList (candsLit sep r1) fun _ r2 =>
  firstSomeList (candsM r2) fun m r3 =>
  firstSomeList (candsLit sep r3) fun _ r4 =>
  firstSomeList (candsD r4) fun d r5 =>
  if r5 = [] then some (y, m, d) else none

/-- `%d/%m/%Y`. -/
def fmtDmY (l : List Char) : Option (Nat × Nat × Nat) :=
  firstSomeList (candsD l) fun d r1 =>
  firstSomeList (candsLit '/' r1) fun _ r2 =>
  firstSomeList (candsM r2) fun m r3 =>
  firstSomeList (candsLit '/' r3) fun _ r4 =>
  firstSomeList (candsY r4) fun y r5 =>
  if r5 = [] then some (y, m, d) else none

/-- `%m/%d/%Y`. -/
def fmtMdY (l : List Char) : Option (Nat × Nat × Nat) :=
  firstSomeList (candsM l) fun m r1 =>
  firstSomeList (candsLit '/' r1) fun _ r2 =>
  firstSomeList (candsD r2) fun d r3 =>
  firstSomeList (candsLit '/' r3) fun _ r4 =>
  firstSomeList (candsY r4) fun y r5 =>
  if r5 = [] then some (y, m, d) else none

/-- `%Y%m%d`. -/
def fmtYmd (l : List Char) : Option (Nat × Nat × Nat) :=
  firstSomeList (candsY l) fun y r1 =>
  firstSomeList (candsM r1) fun m r2 =>
  firstSomeList (candsD r2) fun d r3 =>
  if r3 = [] then some (y, m, d) else none

/-- `%d-%b-%Y` (e.g. `12-Feb-2026`). -/
def fmtDbY (l : List Char) : Option (Nat × Nat × Nat) :=
  firstSomeList (candsD l) fun d r1 =>
  firstSomeList (candsLit '-' r1) fun _ r2 =>
  firstSomeList (candsB r2) fun m r3 =>
  firstSomeList (candsLit '-' r3) fun _ r4 =>
  firstSomeList (candsY r4) fun y r5 =>
  if r5 = [] then some (y, m, d) else none

/-- `_parse_date`: strip, then the six formats in order (an out-of-range
date raises inside one format and falls through to the next). -/
def parse_date (s : String) : Option PDate :=
  if s = "" then none
  else
    let t := stripQuotesL (pyStripL s.toList)
    [fmtYmdSep '-', fmtYmdSep '/', fmtDmY, fmtMdY, fmtYmd, fmtDbY].findSome? fun f =>
      (f t).bind fun ymd => mkDate ymd.1 ymd.2.1 ymd.2.2

def parse_date_opt (s : Option String) : Option PDate :=
  match s with
  | none => none
  | some s => parse_date s

/-! ## Vendor PCF parsers (src/data/parser_pcf.py) -/

structure PCFRecord where
  etf_code : String
  pcf_date : PDate
  nav : Option ℚ
  shares_outstanding : Option Int
  cash_component : Option ℚ
  equity_count_tse : Option Int
  equity_market_value : Option ℚ
  futures_positions : List FuturesPosition
deriving DecidableEq

/-- Mutable loop state of the holdings scan: collected futures legs,
total equity value and total equity count. -/
structure HoldAcc where
  fps : List FuturesPosition
  tev : ℚ
  tec : Int
deriving DecidableEq

/-- Locate `Shares Amount`/`Shares` and `Stock Price` in the (stripped,
lowercased) column headers; a later match overwrites an earlier one. -/
def scanIceCols (headers : List (List Char)) : Option Nat × Option Nat :=
  headers.enum.foldl
    (fun (acc : Option Nat × Option Nat) p =>
      let h : String := ⟨p.2⟩
      if h = "shares amount" ∨ h = "shares" then (some p.1, acc.2)
      else if h = "stock price" then (acc.1, some p.1)
      else acc)
    (none, none)

/-- One holdings row of the ICE loop (lines 82-99 of parser_pcf.py). -/
def iceRowStep (sharesCol priceCol : Nat) (acc : HoldAcc) (row : List String) : HoldAcc :=
  if row.length < 3 then acc
  else
    let name : String := ⟨pyStripL (row.getD 1 "").toList⟩
    if is_futures_row row then
      let quantity : Int :=
        if sharesCol < row.length then (parse_int (row.getD sharesCol "")).getD 0 else 0
      let price : ℚ :=
        if priceCol < row.length then (parse_number (row.getD priceCol "")).getD 0 else 0
      let market_val := (quantity : ℚ) * price
      { acc with fps := acc.fps ++ [normalize_futures name quantity market_val] }
    else
      let shares : Option Int :=
        if sharesCol < row.length then parse_int (row.getD sharesCol "") else some 0
      let price : Option ℚ :=
        if priceCol < row.length then parse_number (row.getD priceCol "") else none
      match shares, price with
      | some sh, some pr =>
        if sh ≠ 0 ∧ pr ≠ 0 then { acc with tev := acc.tev + (sh : ℚ) * pr, tec := acc.tec + sh }
        else acc
      | _, _ => acc

/-- `parse_ice_pcf` (lines 25-117).  `today` models `date.today()`, the
fallback for an unparseable disclosure date. -/
def parse_ice_pcf (today : PDate) (csv_text : String) (etf_code : String) : Option PCFRecord :=
  if csv_text = "" ∨ pyStripL csv_text.toList = [] then none
  else
    let lines := splitOnNl (pyStripL csv_text.toList)
    if lines.length < 4 then none
    else
      let meta_row := csvReadLine (lines.getD 1 [])
      if meta_row.length < 5 then none
      else
        let cash := parse_number (meta_row.getD 2 "")
        let shares_outstanding := parse_int (meta_row.getD 3 "")
        let pcf_date := (parse_date (meta_row.getD 4 "")).getD today
        let headers := (csvReadLine (lines.getD 3 [])).map (fun h => lowerL (pyStripL h.toList))
        let found := scanIceCols headers
        let sharesCol := found.1.getD 5
        let priceCol := found.2.getD (sharesCol + 1)
        let rows := csvParse (joinNl (lines.drop 4))
        let acc := rows.foldl (iceRowStep sharesCol priceCol) ⟨[], 0, 0⟩
        let nav : Option ℚ :=
          if cash.isSome ∨ 0 < acc.tev then some (cash.getD 0 + acc.tev) else none
        some {
          etf_code := etf_code,
          pcf_date := pcf_date,
          nav := nav,
          shares_outstanding := shares_outstanding,
          cash_component := cash,
          equity_count_tse := if acc.tec ≠ 0 then some acc.tec else none,
          equity_market_value := if acc.tev ≠ 0 then some acc.tev else none,
          futures_positions := acc.fps.take 2 }

/-- The labelled metadata collected by the Solactive scan plus the index of
the first holdings line. -/
structure SolMeta where
  code : Option String
  cash : Option String
  so : Option String
  date : Option String
  nav : Option String
  holdingsStart : Option Nat
deriving DecidableEq

/-- One labelled metadata row: `key = parts[0].lower()`, matched by
substring against the synonym chain (`code` only if not already set). -/
def solUpdateMeta (m : SolMeta) (parts : List (List Char)) : SolMeta :=
  if 2 ≤ parts.length then
    let key := lowerL (parts.getD 0 [])
    let val : String := ⟨parts.getD 1 []⟩
    if containsSub "code".toList key ∧ m.code.isNone then { m with code := some val }
    else if containsSub "cash".toList key then { m with cash := some val }
    else if containsSub "shares outstanding".toList key ∨ containsSub "units".toList key then
      { m with so := some val }
    else if containsSub "date".toList key then { m with date := some val }
    else if containsSub "nav".toList key then { m with nav := some val }
    else m
  else m

/-- The Solactive metadata/holdings-header scan (lines 141-170): blank lines
advance the section counter; in section 0 labelled rows update the
metadata; afterwards the first row containing `code` marks the holdings
start and the next row breaks the loop. -/
def solScan : Nat → List (List Char) → Nat → SolMeta → SolMeta
  | _, [], _, m => m
  | i, line :: rest, sectionNo, m =>
    let ls := pyStripL line
    if ls = [] then solScan (i + 1) rest (sectionNo + 1) m
    else if sectionNo = 0 then
      solScan (i + 1) rest sectionNo
        (solUpdateMeta m ((splitOnChar ',' ls).map (fun p => stripQuotesL (pyStripL p))))
    else if m.holdingsStart.isNone then
      let parts := (splitOnChar ',' ls).map (fun p => stripQuotesL (pyStripL p))
      if parts.any (fun p => containsSub "code".toList (lowerL p)) then
        solScan (i + 1) rest sectionNo { m with holdingsStart := some (i + 1) }
      else m
    else m

/-- One holdings row of the Solactive loop (lines 186-205). -/
def solRowStep (acc : HoldAcc) (row : List String) : HoldAcc :=
  if row.length < 6 then acc
  else
    let name : String := ⟨pyStripL (row.getD 1 "").toList⟩
    let shares_amount : Option Int :=
      if 5 < row.length then parse_int (row.getD 5 "") else some 0
    let stock_price : Option ℚ :=
      if 6 < row.length then parse_number (row.getD 6 "") else none
    if is_futures_row row then
      { acc with fps := acc.fps ++
          [normalize_futures name (shares_amount.getD 0)
            ((shares_amount.getD 0 : ℚ) * (stock_price.getD 0))] }
    else
      match shares_amount, stock_price with
      | some sh, some pr =>
        if sh ≠ 0 ∧ pr ≠ 0 then { acc with tev := acc.tev + (sh : ℚ) * pr, tec := acc.tec + sh }
        else acc
      | _, _ => acc

/-- `parse_solactive_pcf` (lines 123-218). -/
def parse_solactive_pcf (today : PDate) (csv_text : String) (etf_code : String) :
    Option PCFRecord :=
  if csv_text = "" ∨ pyStripL csv_text.toList = [] then none
  else
    let lines := splitOnNl (pyStripL csv_text.toList)
    let meta := solScan 0 lines 0 ⟨none, none, none, none, none, none⟩
    let pcf_date := (parse_date (meta.date.getD "")).getD today
    let nav := parse_number_opt meta.nav
    let shares_outstanding := parse_int_opt meta.so
    let cash := parse_number_opt meta.cash
    let acc : HoldAcc :=
      match meta.holdingsStart with
      | some hs => (csvParse (joinNl (lines.drop hs))).foldl solRowStep ⟨[], 0, 0⟩
      | none => ⟨[], 0, 0⟩
    some {
      etf_code := etf_code,
      pcf_date := pcf_date,
      nav := nav,
      shares_outstanding := shares_outstanding,
      cash_component := cash,
      equity_count_tse := if acc.tec ≠ 0 then some acc.tec else none,
      equity_market_value := if acc.tev ≠ 0 then some acc.tev else none,
      futures_positions := acc.fps.take 2 }

/-- Locate `Shares`/`Shares Amount`, `Stock Price` and `Market Value` in the
S&P Global headers (the `Future multiplier` column is located by the source
but never used). -/
def scanSpgCols (headers : List (List Char)) : Option Nat × Option Nat × Option Nat :=
  headers.enum.foldl
    (fun (acc : Option Nat × Option Nat × Option Nat) p =>
      let h : String := ⟨p.2⟩
      if h = "shares amount" ∨ h = "shares" then (some p.1, acc.2)
      else if h = "stock price" then (acc.1, some p.1, acc.2.2)
      else if h = "market value" then (acc.1, acc.2.1, some p.1)
      else acc)
    (none, none, none)

/-- One holdings row of the S&P Global loop (lines 299-331): `Cash`/`Margin`
rows are skipped; a dedicated market-value column, when present and
non-blank, overrides quantity × price for futures legs. -/
def spgRowStep (sharesCol priceCol : Nat) (mvCol : Option Nat) (acc : HoldAcc)
    (row : List String) : HoldAcc :=
  if row.length < 3 then acc
  else
    let code_val : List Char := pyStripL (row.headD "").toList
    let name : String := ⟨pyStripL (row.getD 1 "").toList⟩
    if (⟨lowerL code_val⟩ : String) = "cash" ∨ (⟨lowerL code_val⟩ : String) = "margin" then acc
    else if is_futures_row row then
      let quantity : Option Int :=
        if sharesCol < row.length then parse_int (row.getD sharesCol "") else some 0
      let price : Option ℚ :=
        if priceCol < row.length then parse_number (row.getD priceCol "") else some 0
      let market_val : ℚ :=
        match mvCol with
        | some mc =>
          if mc < row.length ∧ pyStripL (row.getD mc "").toList ≠ [] then
            (parse_number (row.getD mc "")).getD 0
          else (quantity.getD 0 : ℚ) * (price.getD 0)
        | none => (quantity.getD 0 : ℚ) * (price.getD 0)
      { acc with fps := acc.fps ++ [normalize_futures name (quantity.getD 0) market_val] }
    else
      let shares : Option Int :=
        if sharesCol < row.length then parse_int (row.getD sharesCol "") else some 0
      let price : Option ℚ :=
        if priceCol < row.length then parse_number (row.getD priceCol "") else none
      match shares, price with
      | some sh, some pr =>
        if sh ≠ 0 ∧ pr ≠ 0 then { acc with tev := acc.tev + (sh : ℚ) * pr, tec := acc.tec + sh }
        else acc
      | _, _ => acc

/-- `parse_spglobal_pcf` (lines 224-348): sub-variant A follows the ICE
layout; sub-variant B ("Cash & Others"/"AUM" in the header line) reads the
NAV from the `AUM` metadata cell. -/
def parse_spglobal_pcf (today : PDate) (csv_text : String) (etf_code : String) :
    Option PCFRecord :=
  if csv_text = "" ∨ pyStripL csv_text.toList = [] then none
  else
    let lines := splitOnNl (pyStripL csv_text.toList)
    if lines.length < 4 then none
    else
      let header_line := pyStripL (lines.headD [])
      let is_amova :=
        containsSub "Cash & Others".toList header_line ∨ containsSub "AUM".toList header_line
      let meta_row := csvReadLine (lines.getD 1 [])
      if meta_row.length < 5 then none
      else
        let cash := parse_number (meta_row.getD 2 "")
        let shares_outstanding := parse_int (meta_row.getD 3 "")
        let pcf_date := (parse_date (meta_row.getD 4 "")).getD today
        let nav0 : Option ℚ :=
          if is_amova ∧ 5 < meta_row.length then parse_number (meta_row.getD 5 "") else none
        let headers := (csvReadLine (lines.getD 3 [])).map (fun h => lowerL (pyStripL h.toList))
        let found := scanSpgCols headers
        let sharesCol := found.1.getD 5
        let priceCol := found.2.1.getD (sharesCol + 1)
        let mvCol := found.2.2
        let rows := csvParse (joinNl (lines.drop 4))
        let acc := rows.foldl (spgRowStep sharesCol priceCol mvCol) ⟨[], 0, 0⟩
        let nav : Option ℚ :=
          if nav0.isNone ∧ (cash.isSome ∨ 0 < acc.tev) then some (cash.getD 0 + acc.tev)
          else nav0
        some {
          etf_code := etf_code,
          pcf_date := pcf_date,
          nav := nav,
          shares_outstanding := shares_outstanding,
          cash_component := cash,
          equity_count_tse := if acc.tec ≠ 0 then some acc.tec else none,
          equity_market_value := if acc.tev ≠ 0 then some acc.tev else none,
          futures_positions := acc.fps.take 2 }

/-! ## Futures exposure (src/data/aggregator.py lines 260-313) and the
notional helper `_calc_notional` (src/ui/etf_timeseries_view.py lines
189-201). -/

/-- One wide `etf_timeseries` row as consumed by `compute_futures_exposure`
(the per-leg columns `futures{1,2}_*`). -/
structure WideRow where
  etf_code : String
  date : Int
  nav : Option ℚ
  futures1_type : Option String
  futures1_contract_month : Option String
  futures1_quantity : Option ℚ
  futures1_market_value : Option ℚ
  futures1_multiplier : Option ℚ
  futures2_type : Option String
  futures2_contract_month : Option String
  futures2_quantity : Option ℚ
  futures2_market_value : Option ℚ
  futures2_multiplier : Option ℚ
deriving DecidableEq

/-- One exploded exposure row. -/
structure ExpRow where
  etf_code : String
  date : Int
  nav : Option ℚ
  futures_type : String
  contract_month : Option String
  quantity : Option ℚ
  market_value : Option ℚ
  multiplier : Option ℚ
  futures_ratio : Option ℚ
deriving DecidableEq

/-- `futures_ratio = (|market_value| / nav).where(nav > 0)`. -/
def futuresRatio (mv nav : Option ℚ) : Option ℚ :=
  match mv, nav with
  | some m, some n => if 0 < n then some (|m| / n) else none
  | _, _ => none

/-- The per-record leg explosion (`先物1`, `先物2`). -/
def wideRowLegs (r : WideRow) : List ExpRow :=
  (match r.futures1_type with
   | some t => [⟨r.etf_code, r.date, r.nav, t, r.futures1_contract_month,
       r.futures1_quantity, r.futures1_market_value, r.futures1_multiplier,
       futuresRatio r.futures1_market_value r.nav⟩]
   | none => []) ++
  (match r.futures2_type with
   | some t => [⟨r.etf_code, r.date, r.nav, t, r.futures2_contract_month,
       r.futures2_quantity, r.futures2_market_value, r.futures2_multiplier,
       futuresRatio r.futures2_market_value r.nav⟩]
   | none => [])

/-- `compute_futures_exposure`: explode the (up to two) legs of every row
and attach the NAV-relative ratio.  The market value is carried through
unchanged; no multiplier-based notional is derived here. -/
def compute_futures_exposure (rows : List WideRow) : List ExpRow :=
  rows.flatMap wideRowLegs

/-- `_calc_notional` (src/ui/etf_timeseries_view.py lines 189-201): `None`,
`NaN` and falsy (zero) arguments short-circuit; otherwise the per-unit
estimate `|mv| / (|qty| * mult)` decides whether `mv` is already a full
notional (`≥ 100`) or must be scaled by the multiplier. -/
def calc_notional (mv qty mult : Option ℚ) : ℚ :=
  match mv with
  | none => 0
  | some m =>
    if m = 0 then 0
    else
      match qty with
      | none => m
      | some q =>
        if q = 0 then m
        else
          match mult with
          | none => m
          | some mu =>
            if mu = 0 then m
            else if 100 ≤ |m| / (|q| * mu) then m else m * mu

/-- Modelled from the spec (§4.1 / claim C7 wording): an instrument code of
"2–4 letters followed by 1 digit".  This is the *claimed* code shape, to be
compared against the source pattern `codeFuturesPattern`. -/
def claimCodePattern (code : List Char) : Bool :=
  [2, 3, 4].any fun k =>
    code.length = k + 1 && (code.take k).all upperAZ && (code.getD k ' ').isDigit

/-! ## Concrete fixtures used by the claim theorems -/

/-- The spec's worked creation/redemption series: shares outstanding
[100, 120, 120, 90] and per-unit NAV [10, 11, 12, 13] on four days
(so NAV = [1000, 1320, 1440, 1170]). -/
def dfC2 : TSFrame :=
  ⟨["etf_code", "date", "nav", "shares_outstanding"],
   [⟨"1306", 1, some 1000, some 100⟩, ⟨"1306", 2, some 1320, some 120⟩,
    ⟨"1306", 3, some 1440, some 120⟩, ⟨"1306", 4, some 1170, some 90⟩]⟩

/-- A two-day single-ETF series (distinct from `dfC2`). -/
def dfC1w : TSFrame :=
  ⟨["etf_code", "date", "nav", "shares_outstanding"],
   [⟨"9432", 1, some 100, some 10⟩, ⟨"9432", 2, some 220, some 20⟩]⟩

/-- An ICE-format fixture with one equity row and three futures rows (the
third must be truncated by the two-leg cap). -/
def iceTextW : String :=
  "ETF Code,ETF Name,Fund Cash Component,Shares Outstanding,Fund Date\n" ++
  "1306,TOPIX ETF,1000,500,20260217\n" ++
  "\n" ++
  "Code,Name,ISIN,Exchange,Currency,Shares Amount,Stock Price\n" ++
  "7203,TOYOTA,JP123,TSE,JPY,100,2000\n" ++
  ",TOPIX INDX FUTR 2603,JPF,OSE,JPY,5,270\n" ++
  ",NK225 FUTURES MAR.2026,JPF,OSE,JPY,3,39000\n" ++
  ",TOPIX 2606,JPF,OSE,JPY,2,280\n"

/-- A minimal Solactive-format fixture (no labelled metadata parses, no
holdings section). -/
def solTextW : String := "x"

/-- A minimal S&P Global format-A fixture (no holdings rows). -/
def spgTextW : String := "h\nA,B,10,5,20260101\n\nh2\n"

/-- An ICE-format fixture whose metadata holds an unparseable cash
component (`ABC`), shares outstanding (`X?`) and disclosure date
(`BADDATE`). -/
def iceBadText : String :=
  "ETF Code,ETF Name,Fund Cash Component,Shares Outstanding,Fund Date\n" ++
  "1306,TOPIX ETF,ABC,X?,BADDATE\n" ++
  "\n" ++
  "Code,Name,ISIN,Exchange,Currency,Shares Amount,Stock Price\n" ++
  "7203,TOYOTA,JP123,TSE,JPY,100,2000\n"

/-- A wide row whose single futures leg reports market value 500 with 1
contract of multiplier 1000: the per-unit estimate 500/(1·1000) = 0.5 is
below 100, so the claimed reconciliation would require notional
500 × 1000 = 500000. -/
def wideC6 : WideRow :=
  ⟨"1306", 1, some 1000000, some "TOPIX", some "2603", some 1, some 500, some 1000,
   none, none, none, none, none⟩

/-! # Theorems -/

/-- C10: calling `compute_creation_redemption` on an empty frame returns an
empty frame without raising, whatever the column set (even with all four
required columns absent); the missing-column `ValueError` can only arise
for a frame with rows. -/
theorem c10_empty_frame_short_circuit (cols : List String) (rows : List TSRow) :
    (rows = [] → compute_creation_redemption ⟨cols, rows⟩ = .ok []) ∧
    (∀ e, compute_creation_redemption ⟨cols, rows⟩ = .error e → rows ≠ []) := by
  constructor
  · intro h
    subst h
    simp [compute_creation_redemption]
  · intro e he h
    subst h
    simp [compute_creation_redemption] at he

/-- Witness for C10 at the empty frame with no columns at all. -/
theorem c10_empty_frame_short_circuit_witness :
    compute_creation_redemption ⟨[], []⟩ = .ok [] :=
  (c10_empty_frame_short_circuit [] []).1 rfl

unseal Rat.mul Rat.inv Rat.add Rat.sub in
/-- C2 counterexample: on the spec's series the day-2 flow amount is
(120 − 100) × 10 = 200 (the share delta times day 1's per-unit NAV), not
the claimed 220 = (120 − 100) × 11; day 2's own per-unit NAV 11 is never
used for day 2's flow. -/
theorem c2_counterexample :
    (compute_creation_redemption dfC2).toOption.map
        (fun l => l.map (fun r => (r.date, r.flow_amount))) =
      some [(2, some 200), (3, some 0), (4, some (-360))] ∧
    some (200 : ℚ) ≠ some (220 : ℚ) := by
  constructor
  · decide
  · decide

unseal Rat.mul Rat.inv Rat.add Rat.sub in
/-- C2 amended: the series [100, 120, 120, 90] / per-unit NAV
[10, 11, 12, 13] yields day 2 flow 200 (= 20 × 10, priced at the prior
day's per-unit NAV) of type creation, day 3 flow 0 with flow type none,
day 4 flow −360 (= −30 × 12) of type redemption, and no output row for
day 1. -/
theorem c2_amended :
    compute_creation_redemption dfC2 = .ok
      [⟨"1306", 2, some 120, some 20, some 11, some 200, some "creation"⟩,
       ⟨"1306", 3, some 120, some 0, some 12, some 0, none⟩,
       ⟨"1306", 4, some 90, some (-30), some 13, some (-360), some "redemption"⟩] := by
  have h : (compute_creation_redemption dfC2).toOption =
      some [⟨"1306", 2, some 120, some 20, some 11, some 200, some "creation"⟩,
        ⟨"1306", 3, some 120, some 0, some 12, some 0, none⟩,
        ⟨"1306", 4, some 90, some (-30), some 13, some (-360), some "redemption"⟩] := by decide
  cases he : compute_creation_redemption dfC2 with
  | error e => rw [he] at h; simp [Except.toOption] at h
  | ok l => rw [he] at h; simp [Except.toOption] at h; rw [h]

/-- C4: the name `NK225.OP.CALL MAR.2026` classifies as the call-option
type `NK225_OPTION_CALL` (not the generic `NK225` index future) with
contract month `2603`. -/
theorem c4_option_call_classification :
    (normalize_futures "NK225.OP.CALL MAR.2026" 0 0).futures_type = "NK225_OPTION_CALL" ∧
    (normalize_futures "NK225.OP.CALL MAR.2026" 0 0).contract_month = some "2603" := by
  constructor
  · rfl
  · rfl

/-- The hypothesis of C5: none of the classification patterns matches the
cleaned (garbled-prefix-removed, stripped, uppercased) futures name. -/
def matchesNoPattern (raw_name : String) : Prop :=
  ∀ p ∈ FUTURES_PATTERNS, reSearch p.1 (cleanedName (pyStripL raw_name.toList)) = false

theorem findSome?_none_of_all_none {α β : Type} {f : α → Option β} :
    ∀ {l : List α}, (∀ a ∈ l, f a = none) → l.findSome? f = none := by
  intro l
  induction l with
  | nil => intro _; rfl
  | cons a t ih =>
    intro h
    rw [List.findSome?_cons, h a (List.mem_cons_self a t)]
    exact ih fun x hx => h x (List.mem_cons_of_mem a hx)

/-- C5: a futures name matching none of the classification patterns
normalises to the fallback type `UNKNOWN` with multiplier 1 (and, the
embedding being a total function, classification can never raise). -/
theorem c5_unmatched_name_falls_back (raw_name : String) (quantity : Int)
    (market_value : ℚ) (h : matchesNoPattern raw_name) :
    (normalize_futures raw_name quantity market_value).futures_type = "UNKNOWN" ∧
    (normalize_futures raw_name quantity market_value).multiplier = 1 := by
  by_cases hr : raw_name = ""
  · subst hr
    exact ⟨rfl, rfl⟩
  · have hcl : classify_futures_type (pyStripL raw_name.toList) = "UNKNOWN" := by
      unfold classify_futures_type
      rw [findSome?_none_of_all_none]
      intro p hp
      have hh := h p hp
      simp only [hh, Bool.false_eq_true, if_false]
    simp only [normalize_futures, hr, if_false]
    rw [hcl]
    exact ⟨rfl, rfl⟩

/-- Witness for C5: the name `HELLO` matches no pattern and normalises to
`UNKNOWN` with multiplier 1. -/
theorem c5_unmatched_name_falls_back_witness :
    (normalize_futures "HELLO" 7 3).futures_type = "UNKNOWN" ∧
    (normalize_futures "HELLO" 7 3).multiplier = 1 :=
  c5_unmatched_name_falls_back "HELLO" 7 3 (by unfold matchesNoPattern; decide)

theorem mem_crRowsAux {r : CRRow} :
    ∀ (gs seen : List TSRow), r ∈ crRowsAux seen gs →
      ∃ pre cur post, gs = pre ++ cur :: post ∧
        r = crRow cur (lastWithCode cur.etf_code (seen ++ pre)) := by
  intro gs
  induction gs with
  | nil => intro seen h; simp [crRowsAux] at h
  | cons g rest ih =>
    intro seen h
    rw [crRowsAux] at h
    rcases List.mem_cons.mp h with hh | ht
    · exact ⟨[], g, rest, by simp, by simpa using hh⟩
    · obtain ⟨pre, cur, post, hsplit, hr⟩ := ih (seen ++ [g]) ht
      exact ⟨g :: pre, cur, post, by simp [hsplit], by simpa [List.append_assoc] using hr⟩

/-- C1: every output row of `compute_creation_redemption` prices its flow
amount as that day's shares-outstanding delta times the per-unit NAV
(NAV / shares outstanding) of the *previous* record of the same ETF in
date-sorted order — never the day's own per-unit NAV. -/
theorem c1_flow_priced_at_prior_nav (df : TSFrame) (out : List CRRow)
    (h : compute_creation_redemption df = .ok out) :
    ∀ r ∈ out, ∃ pre cur post,
      df.rows.insertionSort (fun a b => tsRowLe a b = true) = pre ++ cur :: post ∧
      r.shares_change = osub cur.shares_outstanding
        ((lastWithCode cur.etf_code pre).bind (·.shares_outstanding)) ∧
      r.flow_amount = omul r.shares_change
        ((lastWithCode cur.etf_code pre).bind nav_per_unit_of) := by
  intro r hr
  unfold compute_creation_redemption at h
  split at h
  · cases h
    simp at hr
  · split at h
    · cases h
    · cases h
      have hmem : r ∈ crRowsAux [] (df.rows.insertionSort (fun a b => tsRowLe a b = true)) :=
        (List.mem_filter.mp hr).1
      obtain ⟨pre, cur, post, hsplit, hrow⟩ := mem_crRowsAux _ [] hmem
      refine ⟨pre, cur, post, hsplit, ?_, ?_⟩
      · rw [hrow]; rfl
      · rw [hrow]; rfl

unseal Rat.mul Rat.inv Rat.add Rat.sub in
/-- Witness for C1 on a concrete two-day series: the day-2 row's flow
100 = (20 − 10) × (100 / 10) uses day 1's per-unit NAV. -/
theorem c1_flow_priced_at_prior_nav_witness :
    ∃ pre cur post,
      dfC1w.rows.insertionSort (fun a b => tsRowLe a b = true) = pre ++ cur :: post ∧
      (⟨"9432", 2, some 20, some 10, some 11, some 100, some "creation"⟩ : CRRow).shares_change =
        osub cur.shares_outstanding
          ((lastWithCode cur.etf_code pre).bind (·.shares_outstanding)) ∧
      (⟨"9432", 2, some 20, some 10, some 11, some 100, some "creation"⟩ : CRRow).flow_amount =
        omul (⟨"9432", 2, some 20, some 10, some 11, some 100, some "creation"⟩ : CRRow).shares_change
          ((lastWithCode cur.etf_code pre).bind nav_per_unit_of) :=
  c1_flow_priced_at_prior_nav dfC1w
    [⟨"9432", 2, some 20, some 10, some 11, some 100, some "creation"⟩]
    rfl
    ⟨"9432", 2, some 20, some 10, some 11, some 100, some "creation"⟩
    (List.mem_singleton.mpr rfl)

/-- C7 counterexample: with a recognised futures exchange (`OSE`) in cell 3,
the code `AB1` — exactly 2 letters followed by 1 digit, so matching the
claim's "2–4 letters followed by 1 digit" shape — is classified as an
equity row, because the source pattern `^[A-Z]{2,4}[A-Z0-9]\d$` needs one
more character between the letters and the final digit. -/
theorem c7_counterexample :
    claimCodePattern "AB1".toList = true ∧
    scanExchange ["AB1", "SOMENAME", "ISIN", "OSE"] = "OSE" ∧
    is_futures_row ["AB1", "SOMENAME", "ISIN", "OSE"] = false := by
  refine ⟨by decide, by decide, by decide⟩

theorem exchangeAt_some_lt {row : List String} {idx : Nat} {v : String}
    (h : exchangeAt row idx = some v) : idx < row.length := by
  unfold exchangeAt at h
  split at h
  · next hcond => exact hcond.1
  · cases h

theorem scanExchange_length {row : List String} {v : String}
    (h : scanExchange row = v) (hv : v ≠ "") : 3 < row.length := by
  unfold scanExchange at h
  cases h3 : exchangeAt row 3 with
  | some w => exact exchangeAt_some_lt h3
  | none =>
    rw [h3] at h
    cases h4 : exchangeAt row 4 with
    | some w =>
      have := exchangeAt_some_lt h4
      omega
    | none =>
      rw [h4] at h
      simp at h
      exact absurd h.symm hv

/-- C7 amended: with a recognised futures-exchange token (`OSE`/`XOSE`)
found by the candidate-cell scan, the row is classified as futures when the
instrument code cell is empty, and when the code cell matches
`^[A-Z]{2,4}[A-Z0-9]\d$` — 2–4 capital letters, then one capital
alphanumeric, then one digit (so 3–5 letters followed by a digit, or 2–4
letters followed by two digits); a code of exactly 2 letters and 1 digit
does not match. -/
theorem c7_exchange_code_classification (row : List String)
    (hex : scanExchange row = "OSE" ∨ scanExchange row = "XOSE") :
    (pyStrip (row.headD "") = "" → is_futures_row row = true) ∧
    (codeFuturesPattern (pyStrip (row.headD "")).toList = true → is_futures_row row = true) := by
  have hlen : ¬row.length < 3 := by
    rcases hex with h | h
    · have := scanExchange_length h (by decide)
      omega
    · have := scanExchange_length h (by decide)
      omega
  constructor
  · intro hc
    simp only [is_futures_row]
    rw [if_neg hlen, if_pos hex, if_pos hc]
  · intro hc
    simp only [is_futures_row]
    rw [if_neg hlen, if_pos hex]
    by_cases hempty : pyStrip (row.headD "") = ""
    · rw [if_pos hempty]
    · rw [if_neg hempty, if_pos hc]

/-- Witness for C7 amended: an empty code cell with exchange `OSE`, and the
compact ticker `TPH6` with exchange `XOSE`, are both classified as
futures. -/
theorem c7_exchange_code_classification_witness :
    is_futures_row ["", "SOMENAME", "ISIN", "OSE"] = true ∧
    is_futures_row ["TPH6", "SOMENAME", "ISIN", "XOSE"] = true :=
  ⟨(c7_exchange_code_classification ["", "SOMENAME", "ISIN", "OSE"]
      (Or.inl (by decide))).1 (by decide),
   (c7_exchange_code_classification ["TPH6", "SOMENAME", "ISIN", "XOSE"]
      (Or.inr (by decide))).2 (by decide)⟩

unseal Rat.mul Rat.inv Rat.add Rat.sub in
/-- C6 counterexample: for a leg with market value 500, 1 contract and
multiplier 1000, the per-unit estimate is 0.5 < 100, so the claimed
reconciliation yields notional 500 × 1000 = 500000; but
`compute_futures_exposure` carries the market value 500 through unchanged
(deriving only `futures_ratio`) and computes no such notional — the
threshold rule lives in the UI helper `_calc_notional`, not in the
derivation engine. -/
theorem c6_counterexample :
    compute_futures_exposure [wideC6] =
      [⟨"1306", 1, some 1000000, "TOPIX", some "2603", some 1, some 500, some 1000,
        some (1 / 2000)⟩] ∧
    calc_notional (some 500) (some 1) (some 1000) = 500000 ∧
    (500 : ℚ) ≠ 500000 := by
  refine ⟨by decide, by decide, by decide⟩

/-- C6 amended: the per-unit-estimate threshold rule is implemented by the
rendering helper `_calc_notional` (for non-null, non-zero market value,
quantity and multiplier it returns the market value unchanged when
|mv| / (|qty| × mult) ≥ 100 and mv × mult otherwise), while the derivation
engine's `compute_futures_exposure` carries each leg's reported market
value through unchanged. -/
theorem c6_notional_in_ui_helper :
    (∀ m q mu : ℚ, m ≠ 0 → q ≠ 0 → mu ≠ 0 →
      calc_notional (some m) (some q) (some mu) =
        if 100 ≤ |m| / (|q| * mu) then m else m * mu) ∧
    (∀ (rows : List WideRow) (r : ExpRow), r ∈ compute_futures_exposure rows →
      ∃ w ∈ rows, r.market_value = w.futures1_market_value ∨
        r.market_value = w.futures2_market_value) := by
  constructor
  · intro m q mu hm hq hmu
    simp [calc_notional, hm, hq, hmu]
  · intro rows r hr
    rw [compute_futures_exposure] at hr
    obtain ⟨w, hw, hleg⟩ := List.mem_flatMap.mp hr
    refine ⟨w, hw, ?_⟩
    unfold wideRowLegs at hleg
    rcases List.mem_append.mp hleg with h1 | h2
    · cases hft : w.futures1_type with
      | none => rw [hft] at h1; simp at h1
      | some t =>
        rw [hft] at h1
        simp at h1
        exact Or.inl (by rw [h1])
    · cases hft : w.futures2_type with
      | none => rw [hft] at h2; simp at h2
      | some t =>
        rw [hft] at h2
        simp at h2
        exact Or.inr (by rw [h2])

unseal Rat.mul Rat.inv Rat.add Rat.sub in
/-- Witness for C6 amended, applying both conjuncts at concrete inputs. -/
theorem c6_notional_in_ui_helper_witness :
    calc_notional (some 500) (some 2) (some 10) =
      (if 100 ≤ |(500 : ℚ)| / (|(2 : ℚ)| * 10) then (500 : ℚ) else 500 * 10) ∧
    ∃ w ∈ [wideC6],
      (⟨"1306", 1, some 1000000, "TOPIX", some "2603", some 1, some 500, some 1000,
        some (1 / 2000)⟩ : ExpRow).market_value = w.futures1_market_value ∨
      (⟨"1306", 1, some 1000000, "TOPIX", some "2603", some 1, some 500, some 1000,
        some (1 / 2000)⟩ : ExpRow).market_value = w.futures2_market_value :=
  ⟨c6_notional_in_ui_helper.1 500 2 10 (by decide) (by decide) (by decide),
   c6_notional_in_ui_helper.2 [wideC6]
     ⟨"1306", 1, some 1000000, "TOPIX", some "2603", some 1, some 500, some 1000,
       some (1 / 2000)⟩ (by decide)⟩

unseal Rat.mul Rat.inv Rat.add Rat.sub in
/-- C8 counterexample: on an ICE file whose disclosure-date field is the
unparseable `BADDATE`, the parser substitutes the current date (the
explicit `today` parameter, here 2026-12-31) instead of leaving the date
null — `parse_date` itself does return `none`. -/
theorem c8_counterexample :
    (parse_ice_pcf ⟨2026, 12, 31⟩ iceBadText "1306").map (fun r => r.pcf_date) =
      some ⟨2026, 12, 31⟩ ∧
    parse_date "BADDATE" = none := by
  refine ⟨by decide, by decide⟩

unseal Rat.mul Rat.inv Rat.add Rat.sub in
/-- C8 amended: unparseable numeric metadata fields (cash component `ABC`,
shares outstanding `X?`) degrade to null while the record is still
produced, distinguishable from present values; but an unparseable
disclosure date is replaced by `date.today()` (the `today` parameter),
not by null. -/
theorem c8_field_failure_degrades (today : PDate) :
    parse_ice_pcf today iceBadText "1306" = some
      { etf_code := "1306", pcf_date := today, nav := some 200000,
        shares_outstanding := none, cash_component := none,
        equity_count_tse := some 100, equity_market_value := some 200000,
        futures_positions := [] } := rfl

/-- C3: whatever the input text, each vendor parser caps the futures
positions of a produced record at two legs (`futures_positions[:2]`). -/
theorem c3_futures_leg_cap :
    (∀ today text code r, parse_ice_pcf today text code = some r →
      r.futures_positions.length ≤ 2) ∧
    (∀ today text code r, parse_solactive_pcf today text code = some r →
      r.futures_positions.length ≤ 2) ∧
    (∀ today text code r, parse_spglobal_pcf today text code = some r →
      r.futures_positions.length ≤ 2) := by
  refine ⟨?_, ?_, ?_⟩ <;>
    (intro today text code r h
     first
       | unfold parse_ice_pcf at h
       | unfold parse_solactive_pcf at h
       | unfold parse_spglobal_pcf at h) <;>
    (dsimp only at h) <;>
    (repeat' split at h) <;>
    (try cases h) <;>
    simp [List.length_take]

unseal Rat.mul Rat.inv Rat.add Rat.sub in
/-- Witness for C3, applying the cap theorem to a record of each parser;
the ICE fixture contains three futures rows, of which exactly the first
two survive. -/
theorem c3_futures_leg_cap_witness :
    (⟨"1306", ⟨2026, 2, 17⟩, some 201000, some 500, some 1000, some 100, some 200000,
      [⟨"TOPIX INDX FUTR 2603", "TOPIX", some "2603", 5, 1350, 10000⟩,
       ⟨"NK225 FUTURES MAR.2026", "NK225", some "2603", 3, 117000, 1000⟩]⟩ :
        PCFRecord).futures_positions.length ≤ 2 ∧
    (⟨"1399", ⟨2026, 1, 2⟩, none, none, none, none, none, []⟩ :
        PCFRecord).futures_positions.length ≤ 2 ∧
    (⟨"245A", ⟨2026, 1, 1⟩, some 10, some 5, some 10, none, none, []⟩ :
        PCFRecord).futures_positions.length ≤ 2 :=
  ⟨c3_futures_leg_cap.1 ⟨2026, 1, 2⟩ iceTextW "1306"
      ⟨"1306", ⟨2026, 2, 17⟩, some 201000, some 500, some 1000, some 100, some 200000,
        [⟨"TOPIX INDX FUTR 2603", "TOPIX", some "2603", 5, 1350, 10000⟩,
         ⟨"NK225 FUTURES MAR.2026", "NK225", some "2603", 3, 117000, 1000⟩]⟩ (by decide),
   c3_futures_leg_cap.2.1 ⟨2026, 1, 2⟩ solTextW "1399"
      ⟨"1399", ⟨2026, 1, 2⟩, none, none, none, none, none, []⟩ (by decide),
   c3_futures_leg_cap.2.2 ⟨2026, 1, 2⟩ spgTextW "245A"
      ⟨"245A", ⟨2026, 1, 1⟩, some 10, some 5, some 10, none, none, []⟩ (by decide)⟩

/-- C9 counterexample: a first merge into an *empty* store saves the batch
verbatim (no key sort, no dedup), so re-merging the identical two-row
batch `[9999, 1111]` key-sorts the store into `[1111, 9999]` — the second
merge does not leave the store contents exactly as after the first. -/
theorem c9_counterexample :
    append_daily (append_daily [] [⟨"9999", 1, 1⟩, ⟨"1111", 1, 2⟩])
        [⟨"9999", 1, 1⟩, ⟨"1111", 1, 2⟩] ≠
      append_daily [] [⟨"9999", 1, 1⟩, ⟨"1111", 1, 2⟩] := by decide

theorem strLtL_irrefl : ∀ l : List Char, strLtL l l = false := by
  intro l
  induction l with
  | nil => rfl
  | cons c t ih => simp [strLtL, ih]

theorem strLtL_trans : ∀ (a b c : List Char), strLtL a b = true → strLtL b c = true →
    strLtL a c = true := by
  intro a
  induction a with
  | nil =>
    intro b c hab hbc
    cases b with
    | nil => cases hab
    | cons y ys =>
      cases c with
      | nil => cases hbc
      | cons z zs => rfl
  | cons x xs ih =>
    intro b c hab hbc
    cases b with
    | nil => cases hab
    | cons y ys =>
      cases c with
      | nil => cases hbc
      | cons z zs =>
        simp only [strLtL, Bool.or_eq_true, Bool.and_eq_true, decide_eq_true_eq] at hab hbc ⊢
        rcases hab with h1 | ⟨h1e, h1t⟩
        · rcases hbc with h2 | ⟨h2e, _⟩
          · exact Or.inl (h1.trans h2)
          · exact Or.inl (h2e ▸ h1)
        · rcases hbc with h2 | ⟨h2e, h2t⟩
          · exact Or.inl (h1e ▸ h2)
          · exact Or.inr ⟨h1e.trans h2e, ih ys zs h1t h2t⟩

theorem strLtL_trichotomy : ∀ (a b : List Char),
    strLtL a b = true ∨ strLtL b a = true ∨ a = b := by
  intro a
  induction a with
  | nil =>
    intro b
    cases b with
    | nil => exact Or.inr (Or.inr rfl)
    | cons y ys => exact Or.inl rfl
  | cons x xs ih =>
    intro b
    cases b with
    | nil => exact Or.inr (Or.inl rfl)
    | cons y ys =>
      rcases Nat.lt_trichotomy x.toNat y.toNat with h | h | h
      · exact Or.inl (by simp [strLtL, h])
      · have hxy : x = y := Char.eq_of_val_eq (by
          have : x.val.toNat = y.val.toNat := h
          exact UInt32.eq_of_val_eq (Fin.ext this))
        rcases ih ys with h2 | h2 | h2
        · exact Or.inl (by simp [strLtL, h, h2])
        · exact Or.inr (Or.inl (by simp [strLtL, h.symm, h2]))
        · exact Or.inr (Or.inr (by rw [hxy, h2]))
      · exact Or.inr (Or.inl (by simp [strLtL, h]))

instance : IsTotal SRow sRowLe where
  total a b := by
    rcases strLtL_trichotomy a.etf_code.toList b.etf_code.toList with h | h | h
    · exact Or.inl (Or.inl h)
    · exact Or.inr (Or.inl h)
    · have he : a.etf_code = b.etf_code := by
        have hd : a.etf_code.data = b.etf_code.data := h
        cases ha : a.etf_code
        cases hb : b.etf_code
        rw [ha, hb] at hd
        exact congrArg String.mk hd
      rcases Int.le_total a.date b.date with hd | hd
      · exact Or.inl (Or.inr ⟨he, hd⟩)
      · exact Or.inr (Or.inr ⟨he.symm, hd⟩)

instance : IsTrans SRow sRowLe where
  trans a b c hab hbc := by
    rcases hab with h1 | ⟨he1, hd1⟩
    · rcases hbc with h2 | ⟨he2, _⟩
      · exact Or.inl (strLtL_trans _ _ _ h1 h2)
      · exact Or.inl (by rw [strLt] at h1 ⊢; rw [← he2]; exact h1)
    · rcases hbc with h2 | ⟨he2, hd2⟩
      · exact Or.inl (by rw [strLt] at h2 ⊢; rw [he1]; exact h2)
      · exact Or.inr ⟨he1.trans he2, hd1.trans hd2⟩

theorem sRowLe_antisymm_key {a b : SRow} (hab : sRowLe a b) (hba : sRowLe b a) :
    skey a = skey b := by
  rcases hab with h1 | ⟨he1, hd1⟩
  · rcases hba with h2 | ⟨he2, _⟩
    · have := strLtL_trans _ _ _ h1 h2
      rw [strLtL_irrefl] at this
      cases this
    · rw [strLt, he2, strLtL_irrefl] at h1
      cases h1
  · rcases hba with h2 | ⟨he2, hd2⟩
    · rw [strLt, he1, strLtL_irrefl] at h2
      cases h2
    · have : a.date = b.date := le_antisymm hd1 hd2
      simp [skey, he1, this]

theorem dropDupKeepLast_sublist : ∀ l : List SRow, List.Sublist (dropDupKeepLast l) l := by
  intro l
  induction l with
  | nil => exact List.Sublist.refl _
  | cons r rest ih =>
    rw [dropDupKeepLast]
    split
    · exact ih.cons r
    · exact ih.cons₂ r

theorem ddk_pairwise : ∀ l : List SRow,
    (dropDupKeepLast l).Pairwise (fun a b => skey a ≠ skey b) := by
  intro l
  induction l with
  | nil => exact List.Pairwise.nil
  | cons r rest ih =>
    rw [dropDupKeepLast]
    split
    · exact ih
    · next hany =>
      refine List.Pairwise.cons ?_ ih
      intro b hb
      have hbrest : b ∈ rest := (dropDupKeepLast_sublist rest).subset hb
      simp only [List.any_eq_true, not_exists, not_and] at hany
      push_neg at hany
      intro hkey
      exact absurd (hkey.symm) (by simpa using hany b hbrest)

theorem ddk_ne_nil : ∀ {l : List SRow}, l ≠ [] → dropDupKeepLast l ≠ [] := by
  intro l
  induction l with
  | nil => intro h; exact absurd rfl h
  | cons r rest ih =>
    intro _
    rw [dropDupKeepLast]
    split
    · next hany =>
      have : rest ≠ [] := by
        intro hr
        rw [hr] at hany
        simp at hany
      exact ih this
    · simp

theorem ddk_append_of_pairwise : ∀ {S : List SRow} (new_df : List SRow),
    S.Pairwise (fun a b => skey a ≠ skey b) →
    dropDupKeepLast (S ++ new_df) =
      S.filter (fun r => !(new_df.any (fun s => skey s = skey r))) ++
        dropDupKeepLast new_df := by
  intro S
  induction S with
  | nil => intro new_df _; simp
  | cons r S2 ih =>
    intro new_df hp
    have hr : ∀ s ∈ S2, skey r ≠ skey s := (List.pairwise_cons.mp hp).1
    have hp2 := (List.pairwise_cons.mp hp).2
    have hS2 : S2.any (fun s => skey s = skey r) = false := by
      simp only [List.any_eq_false, decide_eq_true_eq]
      intro s hs
      exact fun he => hr s hs he.symm
    rw [List.cons_append, dropDupKeepLast]
    by_cases hnew : new_df.any (fun s => skey s = skey r) = true
    · rw [if_pos (by rw [List.any_append, hS2, Bool.false_or]; exact hnew)]
      rw [ih new_df hp2, List.filter_cons_of_neg (by simp [hnew])]
    · rw [if_neg (by rw [List.any_append, hS2, Bool.false_or]; exact hnew)]
      rw [ih new_df hp2, List.filter_cons_of_pos (by
        simp only [Bool.not_eq_true']
        exact Bool.eq_false_iff.mpr hnew), List.cons_append]

theorem ddk_append_filter_right : ∀ (l1 l2 : List SRow),
    (dropDupKeepLast (l1 ++ l2)).filter (fun r => l2.any (fun s => skey s = skey r)) =
      dropDupKeepLast l2 := by
  intro l1
  induction l1 with
  | nil =>
    intro l2
    rw [List.nil_append]
    apply List.filter_eq_self.mpr
    intro a ha
    have := (dropDupKeepLast_sublist l2).subset ha
    simp only [List.any_eq_true, decide_eq_true_eq]
    exact ⟨a, this, rfl⟩
  | cons x l1t ih =>
    intro l2
    rw [List.cons_append, dropDupKeepLast]
    split
    · exact ih l2
    · next hany =>
      have hx : l2.any (fun s => skey s = skey x) = false := by
        have := Bool.eq_false_iff.mpr hany
        rw [List.any_append] at this
        exact (Bool.or_eq_false_iff.mp this).2
      rw [List.filter_cons_of_neg (by simp [hx])]
      exact ih l2

theorem eq_of_perm_sorted_uniqueKeys : ∀ {l1 l2 : List SRow}, l1.Perm l2 →
    l1.Sorted sRowLe → l2.Sorted sRowLe →
    l1.Pairwise (fun a b => skey a ≠ skey b) → l1 = l2 := by
  intro l1
  induction l1 with
  | nil =>
    intro l2 hp _ _ _
    exact List.Perm.nil_eq hp
  | cons a t ih =>
    intro l2 hp hs1 hs2 hk
    cases l2 with
    | nil => exact absurd hp.symm (by simp)
    | cons b t2 =>
      by_cases hab : a = b
      · subst hab
        rw [ih hp.cons_inv hs1.of_cons hs2.of_cons (List.pairwise_cons.mp hk).2]
      · exfalso
        have hb1 : b ∈ a :: t := hp.mem_iff.mpr (List.mem_cons_self b t2)
        have ha2 : a ∈ b :: t2 := hp.mem_iff.mp (List.mem_cons_self a t)
        have hbt : b ∈ t := by
          rcases List.mem_cons.mp hb1 with h | h
          · exact absurd h.symm hab
          · exact h
        have hat2 : a ∈ t2 := by
          rcases List.mem_cons.mp ha2 with h | h
          · exact absurd h hab
          · exact h
        have hle1 : sRowLe a b := List.rel_of_sorted_cons hs1 b hbt
        have hle2 : sRowLe b a := List.rel_of_sorted_cons hs2 a hat2
        have hkey : skey a = skey b := sRowLe_antisymm_key hle1 hle2
        exact (List.pairwise_cons.mp hk).1 b hbt hkey

/-- C9 amended: whenever the store is non-empty before the merge, merging
the same batch a second time via `append_daily` leaves the stored row list
exactly unchanged (no duplicated keys, no value drift, same order).  (The
counterexample shows the remaining case — a first merge into an empty
store keeps the batch's own row order, which a second merge re-sorts.) -/
theorem c9_append_daily_idempotent (existing new_df : List SRow) (hne : existing ≠ []) :
    append_daily (append_daily existing new_df) new_df = append_daily existing new_df := by
  by_cases hnew : new_df.isEmpty
  · simp [append_daily, hnew]
  · have hex : existing.isEmpty = false := by
      cases existing with
      | nil => exact absurd rfl hne
      | cons a t => rfl
    have happ1 : append_daily existing new_df =
        (dropDupKeepLast (existing ++ new_df)).insertionSort sRowLe := by
      rw [append_daily, if_neg (by simp [hnew]), if_neg (by simp [hex])]
    set S1 := (dropDupKeepLast (existing ++ new_df)).insertionSort sRowLe with hS1def
    rw [happ1]
    have hddkne : dropDupKeepLast (existing ++ new_df) ≠ [] :=
      ddk_ne_nil (by simp [hne])
    have hS1perm : S1.Perm (dropDupKeepLast (existing ++ new_df)) :=
      List.perm_insertionSort sRowLe (dropDupKeepLast (existing ++ new_df))
    have hSne : S1 ≠ [] := by
      intro hnil
      rw [hnil] at hS1perm
      exact hddkne (List.Perm.nil_eq hS1perm).symm
    have hS1empty : S1.isEmpty = false := by
      cases hS : S1 with
      | nil => exact absurd hS hSne
      | cons a t => rfl
    rw [append_daily, if_neg (by simp [hnew]), if_neg (by simp [hS1empty])]
    have hsymm : ∀ {x y : SRow}, skey x ≠ skey y → skey y ≠ skey x :=
      fun h he => h he.symm
    have hS1keys : S1.Pairwise (fun a b => skey a ≠ skey b) :=
      (List.Perm.pairwise_iff hsymm hS1perm).mpr (ddk_pairwise _)
    have hS1sorted : S1.Sorted sRowLe :=
      List.sorted_insertionSort sRowLe (dropDupKeepLast (existing ++ new_df))
    have hL1 : dropDupKeepLast (S1 ++ new_df) =
        S1.filter (fun r => !(new_df.any (fun s => skey s = skey r))) ++
          dropDupKeepLast new_df :=
      ddk_append_of_pairwise new_df hS1keys
    have hfilters : (S1.filter (fun r => new_df.any (fun s => skey s = skey r))).Perm
        (dropDupKeepLast new_df) := by
      have h1 := hS1perm.filter (fun r => new_df.any (fun s => skey s = skey r))
      rw [ddk_append_filter_right existing new_df] at h1
      exact h1
    have hperm2 : (dropDupKeepLast (S1 ++ new_df)).Perm S1 := by
      rw [hL1]
      have hstep : (S1.filter (fun r => !(new_df.any (fun s => skey s = skey r))) ++
          dropDupKeepLast new_df).Perm
            (S1.filter (fun r => !(new_df.any (fun s => skey s = skey r))) ++
              S1.filter (fun r => new_df.any (fun s => skey s = skey r))) :=
        List.Perm.append_left _ hfilters.symm
      refine hstep.trans ?_
      have hpart := List.filter_append_perm
        (fun r => new_df.any (fun s => skey s = skey r)) S1
      exact (List.perm_append_comm.trans hpart)
    have hLsorted : ((dropDupKeepLast (S1 ++ new_df)).insertionSort sRowLe).Sorted sRowLe :=
      List.sorted_insertionSort sRowLe _
    have hLperm : ((dropDupKeepLast (S1 ++ new_df)).insertionSort sRowLe).Perm S1 :=
      (List.perm_insertionSort sRowLe _).trans hperm2
    have hLkeys : ((dropDupKeepLast (S1 ++ new_df)).insertionSort sRowLe).Pairwise
        (fun a b => skey a ≠ skey b) :=
      (List.Perm.pairwise_iff hsymm hLperm).mpr hS1keys
    exact eq_of_perm_sorted_uniqueKeys hLperm hLsorted hS1sorted hLkeys

/-- Witness for C9 amended at a concrete one-row store and batch. -/
theorem c9_append_daily_idempotent_witness :
    append_daily (append_daily [⟨"1306", 1, 5⟩] [⟨"1306", 2, 7⟩]) [⟨"1306", 2, 7⟩] =
      append_daily [⟨"1306", 1, 5⟩] [⟨"1306", 2, 7⟩] :=
  c9_append_daily_idempotent [⟨"1306", 1, 5⟩] [⟨"1306", 2, 7⟩] (by decide)

unseal Rat.mul Rat.inv Rat.add Rat.sub in
/-- Witness for C8 amended at a concrete `today`. -/
theorem c8_field_failure_degrades_witness :
    parse_ice_pcf ⟨2027, 3, 9⟩ iceBadText "1306" = some
      { etf_code := "1306", pcf_date := ⟨2027, 3, 9⟩, nav := some 200000,
        shares_outstanding := none, cash_component := none,
        equity_count_tse := some 100, equity_market_value := some 200000,
        futures_positions := [] } :=
  c8_field_failure_degrades ⟨2027, 3, 9⟩
